import Mathlib

/-!
Verification of the chat server in server/server.js.

The server keeps two in-memory JavaScript Maps,
  users : Map<socketId, { username, currentRoom }>
  rooms : Map<roomId, { name, users : Set<socketId> }>
plus the socket.io room-membership table maintained by socket.join /
socket.leave.  Each socket.io event handler is transcribed below as a pure
function from a server state and the event payload to the new state together
with the ordered list of emissions the handler performs.  JavaScript Maps are
modelled as association lists (insertion ordered, key update in place, as
Map.set behaves), JavaScript Sets as duplicate-free insertion-ordered lists.
Payloads are strings, as the external interface declares; timestamps (wall
clock) are omitted from the Message record because no property here concerns
them.
-/

namespace ChatServer

/-- Session data stored per connection in the users map:
`{ username, currentRoom }`. -/
structure UserData where
  username : String
  currentRoom : String
deriving DecidableEq, Repr

/-- Room data stored per room id in the rooms map: `{ name, users }`. -/
structure RoomData where
  name : String
  users : List String
deriving DecidableEq, Repr

/-- Association list keyed by strings, modelling a JavaScript Map. -/
abbrev AList (α : Type) := List (String × α)

variable {α : Type}

/-- Map.get: the value at the first (only) entry with the given key. -/
def alistGet (l : AList α) (k : String) : Option α :=
  match l with
  | [] => none
  | (k1, v1) :: t => if k1 = k then some v1 else alistGet t k

/-- Map.set: update in place if the key is present, else append. -/
def alistSet (l : AList α) (k : String) (v : α) : AList α :=
  match l with
  | [] => [(k, v)]
  | (k1, v1) :: t => if k1 = k then (k1, v) :: t else (k1, v1) :: alistSet t k v

/-- Map.delete. -/
def alistDelete (l : AList α) (k : String) : AList α :=
  match l with
  | [] => []
  | (k1, v1) :: t => if k1 = k then alistDelete t k else (k1, v1) :: alistDelete t k

/-- Map.has. -/
def alistHas (l : AList α) (k : String) : Bool :=
  (alistGet l k).isSome

/-- Array.from(map.keys()). -/
def alistKeys (l : AList α) : List String :=
  l.map Prod.fst

/-- Set.add: append if absent (JavaScript Sets keep insertion order). -/
def setAdd (s : List String) (x : String) : List String :=
  if x ∈ s then s else s ++ [x]

/-- Set.delete. -/
def setDel (s : List String) (x : String) : List String :=
  s.filter (fun y => y ≠ x)

/-- The whole mutable server state: the two Maps of server.js plus the
socket.io room-membership table (socket.join / socket.leave). -/
structure ServerState where
  users : AList UserData
  rooms : AList RoomData
  sio : AList (List String)
deriving DecidableEq, Repr

/-- A transient chat message as emitted on the wire (timestamp omitted).
Room messages carry `room`; private ones carry `isPrivate` and `receiver`. -/
structure Message where
  sender : String
  message : String
  isPrivate : Bool := false
  receiver : Option String := none
  room : Option String := none
deriving DecidableEq, Repr

/-- Outbound event payloads of server.js. -/
inductive Payload
  | error_message (text : String)
  | user_joined (socketId username currentRoom : String)
  | online_users (l : List (String × String × String))
  | available_rooms (l : List String)
  | receive_message (m : Message)
  | room_users_update (room : String) (users : List String)
  | room_changed (room : String)
  | typing_status (username : String) (isTyping : Bool) (room : String)
  | user_disconnected (socketId : String)
deriving DecidableEq, Repr

/-- Addressing of one emission: socket.emit / io.to(socketId) are unicast,
io.to(room) is room multicast, socket.to(room) is room multicast without the
sender, io.emit is global broadcast. -/
inductive Target
  | one (sid : String)
  | room (roomId : String)
  | roomExcept (roomId sid : String)
  | all
deriving DecidableEq, Repr

/-- One emission performed by a handler. -/
structure Emit where
  target : Target
  payload : Payload
deriving DecidableEq, Repr

/-- The default public room created at startup. -/
def DEFAULT_ROOM : String := "general"

/-- The socket.io membership list of a room label (empty if nobody joined). -/
def sioGet (sio : AList (List String)) (room : String) : List String :=
  (alistGet sio room).getD []

/-- socket.join(room). -/
def sioJoin (sio : AList (List String)) (room sid : String) : AList (List String) :=
  alistSet sio room (setAdd (sioGet sio room) sid)

/-- socket.leave(room). -/
def sioLeave (sio : AList (List String)) (room sid : String) : AList (List String) :=
  match alistGet sio room with
  | some l => alistSet sio room (setDel l sid)
  | none => sio

/-- On transport disconnect the socket leaves every socket.io room. -/
def sioLeaveAll (sio : AList (List String)) (sid : String) : AList (List String) :=
  sio.map (fun p => (p.1, setDel p.2 sid))

/-- rooms.get(room).users.add(sid); a no-op if the room is absent (in
server.js that access only happens for rooms known to be present). -/
def roomAddUser (rooms : AList RoomData) (room sid : String) : AList RoomData :=
  match alistGet rooms room with
  | some r => alistSet rooms room { r with users := setAdd r.users sid }
  | none => rooms

/-- rooms.get(room)?.users.delete(sid): a no-op if the room is absent. -/
def roomDelUser (rooms : AList RoomData) (room sid : String) : AList RoomData :=
  match alistGet rooms room with
  | some r => alistSet rooms room { r with users := setDel r.users sid }
  | none => rooms

/-- Array.from(rooms.get(room)?.users || new Set()). -/
def roomUsersList (rooms : AList RoomData) (room : String) : List String :=
  ((alistGet rooms room).map RoomData.users).getD []

/-- occupants.map(id => users.get(id)?.username).filter(Boolean): resolve
occupant ids to usernames, dropping unresolvable ids and falsy (empty)
usernames. -/
def occupantNames (users : AList UserData) (occ : List String) : List String :=
  (occ.filterMap (fun id => (alistGet users id).map UserData.username)).filter
    (fun n => n ≠ "")

/-- An apostrophe character as a string (used in the welcome text). -/
def apos : String := String.mk [Char.ofNat 39]

/-- The welcome text of the join_chat handler. -/
def welcomeText (username : String) : String :=
  "Welcome, " ++ username ++ "! You are in the " ++ apos ++ DEFAULT_ROOM ++
    apos ++ " room."

/-- Handler of the join_chat event (server.js lines 42 to 88).  JavaScript
truthiness: for a string payload, `!username` holds exactly for "". -/
def join_chat (st : ServerState) (sid username : String) :
    ServerState × List Emit :=
  if username = "" then
    (st, [⟨Target.one sid, Payload.error_message "Username cannot be empty."⟩])
  else if st.users.any (fun p => p.2.username = username) then
    (st, [⟨Target.one sid,
      Payload.error_message "Username already taken. Please choose another."⟩])
  else
    let users1 := alistSet st.users sid ⟨username, DEFAULT_ROOM⟩
    let sio1 := sioJoin st.sio DEFAULT_ROOM sid
    let onlineUsers := users1.map (fun p => (p.1, p.2.username, p.2.currentRoom))
    let roomIds := alistKeys st.rooms
    let rooms1 := roomAddUser st.rooms DEFAULT_ROOM sid
    ({ users := users1, rooms := rooms1, sio := sio1 },
      [⟨Target.all, Payload.user_joined sid username DEFAULT_ROOM⟩,
       ⟨Target.one sid, Payload.online_users onlineUsers⟩,
       ⟨Target.one sid, Payload.available_rooms roomIds⟩,
       ⟨Target.one sid, Payload.receive_message
         { sender := "System", message := welcomeText username,
           room := some DEFAULT_ROOM }⟩,
       ⟨Target.room DEFAULT_ROOM, Payload.room_users_update DEFAULT_ROOM
         (occupantNames users1 (roomUsersList rooms1 DEFAULT_ROOM))⟩])

/-- Handler of the join_room event (server.js lines 93 to 141).  The guard
`if (user.currentRoom)` is string truthiness: the leave part runs exactly
when currentRoom is not the empty string. -/
def join_room (st : ServerState) (sid roomName : String) :
    ServerState × List Emit :=
  match alistGet st.users sid with
  | none =>
    (st, [⟨Target.one sid,
      Payload.error_message "Please set your username first."⟩])
  | some user =>
    let leavePart : ServerState × List Emit :=
      if user.currentRoom = "" then (st, [])
      else
        let sio1 := sioLeave st.sio user.currentRoom sid
        let rooms1 := roomDelUser st.rooms user.currentRoom sid
        ({ st with rooms := rooms1, sio := sio1 },
          [⟨Target.room user.currentRoom,
            Payload.room_users_update user.currentRoom
              (occupantNames st.users (roomUsersList rooms1 user.currentRoom))⟩,
           ⟨Target.room user.currentRoom, Payload.receive_message
             { sender := "System",
               message := user.username ++ " has left the room.",
               room := some user.currentRoom }⟩])
    let st1 := leavePart.1
    let ensurePart : ServerState × List Emit :=
      if alistHas st1.rooms roomName then (st1, [])
      else
        let rooms2 := alistSet st1.rooms roomName ⟨roomName, []⟩
        ({ st1 with rooms := rooms2 },
          [⟨Target.all, Payload.available_rooms (alistKeys rooms2)⟩])
    let st2 := ensurePart.1
    let sio3 := sioJoin st2.sio roomName sid
    let users3 := alistSet st2.users sid { user with currentRoom := roomName }
    let rooms3 := roomAddUser st2.rooms roomName sid
    ({ users := users3, rooms := rooms3, sio := sio3 },
      leavePart.2 ++ ensurePart.2 ++
      [⟨Target.room roomName, Payload.room_users_update roomName
          (occupantNames users3 (roomUsersList rooms3 roomName))⟩,
       ⟨Target.room roomName, Payload.receive_message
         { sender := "System",
           message := user.username ++ " has joined the room.",
           room := some roomName }⟩,
       ⟨Target.one sid, Payload.room_changed roomName⟩])

/-- Handler of the send_message event (server.js lines 146 to 162). -/
def send_message (st : ServerState) (sid body : String) :
    ServerState × List Emit :=
  match alistGet st.users sid with
  | none =>
    (st, [⟨Target.one sid,
      Payload.error_message "Please set your username first."⟩])
  | some user =>
    (st, [⟨Target.room user.currentRoom, Payload.receive_message
      { sender := user.username, message := body,
        room := some user.currentRoom }⟩])

/-- Handler of the send_private_message event (server.js lines 165 to 193).
io.to(receiverSocketId) is unicast to the receiver (each socket is alone in
the socket.io room named by its own id). -/
def send_private_message (st : ServerState) (sid rid body : String) :
    ServerState × List Emit :=
  match alistGet st.users sid with
  | none =>
    (st, [⟨Target.one sid,
      Payload.error_message "Please set your username first."⟩])
  | some senderUser =>
    match alistGet st.users rid with
    | none =>
      (st, [⟨Target.one sid,
        Payload.error_message ("User with ID " ++ rid ++ " is not online.")⟩])
    | some receiverUser =>
      let m : Message :=
        { sender := senderUser.username, message := body, isPrivate := true,
          receiver := some receiverUser.username }
      (st, [⟨Target.one sid, Payload.receive_message m⟩,
            ⟨Target.one rid, Payload.receive_message m⟩])

/-- Handler of the typing_start event (server.js lines 198 to 204). -/
def typing_start (st : ServerState) (sid room : String) :
    ServerState × List Emit :=
  match alistGet st.users sid with
  | none => (st, [])
  | some user =>
    (st, [⟨Target.roomExcept room sid,
      Payload.typing_status user.username true room⟩])

/-- Handler of the typing_stop event (server.js lines 207 to 213). -/
def typing_stop (st : ServerState) (sid room : String) :
    ServerState × List Emit :=
  match alistGet st.users sid with
  | none => (st, [])
  | some user =>
    (st, [⟨Target.roomExcept room sid,
      Payload.typing_status user.username false room⟩])

/-- Handler of the transport disconnect (server.js lines 217 to 240); the
socket has already left all socket.io rooms when the handler runs. -/
def disconnect (st : ServerState) (sid : String) : ServerState × List Emit :=
  let sio0 := sioLeaveAll st.sio sid
  match alistGet st.users sid with
  | none => ({ st with sio := sio0 }, [])
  | some user =>
    if user.currentRoom ≠ "" ∧ alistHas st.rooms user.currentRoom then
      let rooms1 := roomDelUser st.rooms user.currentRoom sid
      ({ users := alistDelete st.users sid, rooms := rooms1, sio := sio0 },
        [⟨Target.room user.currentRoom,
          Payload.room_users_update user.currentRoom
            (occupantNames st.users (roomUsersList rooms1 user.currentRoom))⟩,
         ⟨Target.room user.currentRoom, Payload.receive_message
           { sender := "System",
             message := user.username ++ " has left the room.",
             room := some user.currentRoom }⟩,
         ⟨Target.all, Payload.user_disconnected sid⟩])
    else
      ({ users := alistDelete st.users sid, rooms := st.rooms, sio := sio0 },
        [⟨Target.all, Payload.user_disconnected sid⟩])

/-- The inbound events of the external interface. -/
inductive Event
  | join_chat (sid username : String)
  | join_room (sid room : String)
  | send_message (sid body : String)
  | send_private_message (sid rid body : String)
  | typing_start (sid room : String)
  | typing_stop (sid room : String)
  | disconnect (sid : String)
deriving DecidableEq, Repr

/-- Dispatch of one inbound event to its handler. -/
def step (st : ServerState) (e : Event) : ServerState × List Emit :=
  match e with
  | Event.join_chat sid u => join_chat st sid u
  | Event.join_room sid r => join_room st sid r
  | Event.send_message sid b => send_message st sid b
  | Event.send_private_message sid rid b => send_private_message st sid rid b
  | Event.typing_start sid r => typing_start st sid r
  | Event.typing_stop sid r => typing_stop st sid r
  | Event.disconnect sid => disconnect st sid

/-- The originating connection of an inbound event. -/
def eventSid : Event → String
  | Event.join_chat sid _ => sid
  | Event.join_room sid _ => sid
  | Event.send_message sid _ => sid
  | Event.send_private_message sid _ _ => sid
  | Event.typing_start sid _ => sid
  | Event.typing_stop sid _ => sid
  | Event.disconnect sid => sid

/-- The startup state: no users, the pre-created default room, no socket.io
memberships. -/
def initState : ServerState :=
  { users := [], rooms := [(DEFAULT_ROOM, ⟨"General Chat", []⟩)], sio := [] }

/-- Run a sequence of events from a state (handlers run to completion, one at
a time). -/
def runFrom (st : ServerState) (es : List Event) : ServerState :=
  es.foldl (fun s e => (step s e).1) st

/-- Run a sequence of events from the startup state. -/
def run (es : List Event) : ServerState :=
  runFrom initState es

/-- The per-step emission lists of a run. -/
def stepsOutputs : ServerState → List Event → List (List Emit)
  | _, [] => []
  | st, e :: t => (step st e).2 :: stepsOutputs (step st e).1 t

/-- Whether a connection would receive an emission, resolving room targets
against the socket.io membership table of the given state. -/
def DeliveredTo (st : ServerState) (em : Emit) (c : String) : Prop :=
  match em.target with
  | Target.one s => c = s
  | Target.room r => c ∈ sioGet st.sio r
  | Target.roomExcept r s => c ∈ sioGet st.sio r ∧ c ≠ s
  | Target.all => True

/-- Whether a payload is an error_message. -/
def isError : Payload → Bool
  | Payload.error_message _ => true
  | _ => false

/-! ### Association-list and set lemmas -/

theorem alistGet_set_self (l : AList α) (k : String) (v : α) :
    alistGet (alistSet l k v) k = some v := by
  induction l with
  | nil => simp [alistSet, alistGet]
  | cons p t ih =>
    obtain ⟨k1, v1⟩ := p
    by_cases h1 : k1 = k <;> simp [alistSet, alistGet, h1, ih]

theorem alistGet_set_ne (l : AList α) (k k' : String) (v : α) (h : k' ≠ k) :
    alistGet (alistSet l k v) k' = alistGet l k' := by
  have hkk : ¬ k = k' := fun hh => h hh.symm
  induction l with
  | nil => simp [alistSet, alistGet, hkk]
  | cons p t ih =>
    obtain ⟨k1, v1⟩ := p
    by_cases h1 : k1 = k
    · subst h1
      simp [alistSet, alistGet, hkk]
    · simp [alistSet, alistGet, h1, ih]

theorem alistGet_set (l : AList α) (k k' : String) (v : α) :
    alistGet (alistSet l k v) k' = if k' = k then some v else alistGet l k' := by
  by_cases h : k' = k
  · subst h
    simp [alistGet_set_self]
  · simp [h, alistGet_set_ne l k k' v h]

theorem alistGet_delete_self (l : AList α) (k : String) :
    alistGet (alistDelete l k) k = none := by
  induction l with
  | nil => rfl
  | cons p t ih =>
    obtain ⟨k1, v1⟩ := p
    by_cases h1 : k1 = k
    · simpa [alistDelete, h1] using ih
    · simp [alistDelete, alistGet, h1, ih]

theorem alistGet_delete_ne (l : AList α) (k k' : String) (h : k' ≠ k) :
    alistGet (alistDelete l k) k' = alistGet l k' := by
  have hkk : ¬ k = k' := fun hh => h hh.symm
  induction l with
  | nil => rfl
  | cons p t ih =>
    obtain ⟨k1, v1⟩ := p
    by_cases h1 : k1 = k
    · subst h1
      simp [alistDelete, alistGet, hkk, ih]
    · simp [alistDelete, alistGet, h1, ih]

theorem alistGet_delete (l : AList α) (k k' : String) :
    alistGet (alistDelete l k) k' = if k' = k then none else alistGet l k' := by
  by_cases h : k' = k
  · subst h
    simp [alistGet_delete_self]
  · simp [h, alistGet_delete_ne l k k' h]

theorem alistHas_iff (l : AList α) (k : String) :
    alistHas l k = true ↔ ∃ v, alistGet l k = some v := by
  simp [alistHas, Option.isSome_iff_exists]

theorem alistHas_set (l : AList α) (k k' : String) (v : α) :
    alistHas (alistSet l k v) k' = true ↔ (k' = k ∨ alistHas l k' = true) := by
  by_cases h : k' = k <;> simp [alistHas_iff, alistGet_set, h]

theorem mem_setAdd (s : List String) (x y : String) :
    y ∈ setAdd s x ↔ (y = x ∨ y ∈ s) := by
  by_cases h : x ∈ s
  · simp [setAdd, h]
    intro hy; subst hy; exact h
  · simp [setAdd, h, or_comm]

theorem mem_setDel (s : List String) (x y : String) :
    y ∈ setDel s x ↔ (y ∈ s ∧ y ≠ x) := by
  simp [setDel]

theorem nodup_setAdd (s : List String) (x : String) (h : s.Nodup) :
    (setAdd s x).Nodup := by
  by_cases hx : x ∈ s
  · simpa [setAdd, hx] using h
  · rw [setAdd, if_neg hx]
    refine List.Nodup.append h (List.nodup_singleton x) ?_
    intro y hy hmem
    rw [List.mem_singleton] at hmem
    exact hx (hmem ▸ hy)

theorem nodup_setDel (s : List String) (x : String) (h : s.Nodup) :
    (setDel s x).Nodup :=
  h.filter _

/-! ### Room occupancy -/

/-- Membership of a connection-id in a room's occupant set. -/
def OccIn (rooms : AList RoomData) (room sid : String) : Prop :=
  ∃ rd, alistGet rooms room = some rd ∧ sid ∈ rd.users

instance (rooms : AList RoomData) (room sid : String) :
    Decidable (OccIn rooms room sid) := by
  unfold OccIn
  cases h : alistGet rooms room with
  | none => exact isFalse (by simp [h])
  | some rd => exact decidable_of_iff (sid ∈ rd.users) (by simp [h])

theorem alistHas_roomAddUser (rooms : AList RoomData) (room sid r : String) :
    alistHas (roomAddUser rooms room sid) r = alistHas rooms r := by
  unfold roomAddUser
  cases h : alistGet rooms room with
  | none => rfl
  | some rd =>
    by_cases hr : r = room
    · subst hr
      simp [alistHas, alistGet_set, h]
    · simp [alistHas, alistGet_set, hr]

theorem alistHas_roomDelUser (rooms : AList RoomData) (room sid r : String) :
    alistHas (roomDelUser rooms room sid) r = alistHas rooms r := by
  unfold roomDelUser
  cases h : alistGet rooms room with
  | none => rfl
  | some rd =>
    by_cases hr : r = room
    · subst hr
      simp [alistHas, alistGet_set, h]
    · simp [alistHas, alistGet_set, hr]

theorem occIn_roomAddUser_same (rooms : AList RoomData) (room sid x : String)
    (h : alistHas rooms room = true) :
    OccIn (roomAddUser rooms room sid) room x ↔ (x = sid ∨ OccIn rooms room x) := by
  obtain ⟨rd, hrd⟩ := (alistHas_iff rooms room).mp h
  unfold roomAddUser
  rw [hrd]
  simp [OccIn, alistGet_set, hrd, mem_setAdd]

theorem occIn_roomAddUser_other (rooms : AList RoomData) (room sid r x : String)
    (hne : r ≠ room) :
    OccIn (roomAddUser rooms room sid) r x ↔ OccIn rooms r x := by
  unfold roomAddUser
  cases h : alistGet rooms room with
  | none => rfl
  | some rd => simp [OccIn, alistGet_set, hne]

theorem occIn_roomDelUser_same (rooms : AList RoomData) (room sid x : String) :
    OccIn (roomDelUser rooms room sid) room x ↔ (OccIn rooms room x ∧ x ≠ sid) := by
  unfold roomDelUser
  cases h : alistGet rooms room with
  | none => simp [OccIn, h]
  | some rd => simp [OccIn, alistGet_set, h, mem_setDel, and_assoc]

theorem occIn_roomDelUser_other (rooms : AList RoomData) (room sid r x : String)
    (hne : r ≠ room) :
    OccIn (roomDelUser rooms room sid) r x ↔ OccIn rooms r x := by
  unfold roomDelUser
  cases h : alistGet rooms room with
  | none => rfl
  | some rd => simp [OccIn, alistGet_set, hne]

theorem alistHas_eq_false (l : AList α) (k : String) :
    alistHas l k = false ↔ alistGet l k = none := by
  unfold alistHas
  cases alistGet l k <;> simp

theorem occIn_set_empty (rooms : AList RoomData) (room r x : String)
    (h : alistGet rooms room = none) :
    OccIn (alistSet rooms room ⟨room, []⟩) r x ↔ OccIn rooms r x := by
  by_cases hr : r = room
  · subst hr
    simp [OccIn, alistGet_set, h]
  · simp [OccIn, alistGet_set, hr]

/-! ### The occupant-set invariant -/

/-- The invariant of the spec: a connection-id is in a room's occupant set
exactly when some active session has that connection-id and that
currentRoom. -/
def occupantInvariant (st : ServerState) : Prop :=
  ∀ room sid, OccIn st.rooms room sid ↔
    ∃ u, alistGet st.users sid = some u ∧ u.currentRoom = room

/-- Inductive invariant: the default room exists, every session names an
existing room with a non-empty id, and the occupant iff holds. -/
def goodState (st : ServerState) : Prop :=
  alistHas st.rooms DEFAULT_ROOM = true ∧
  (∀ sid u, alistGet st.users sid = some u →
      u.currentRoom ≠ "" ∧ alistHas st.rooms u.currentRoom = true) ∧
  occupantInvariant st

/-- Events as the spec assumes them: a join_chat comes only from a connection
that has no session yet (the spec state machine allows JoinChat only from
Unregistered), and join_room carries a non-empty room id. -/
def okEvent (st : ServerState) : Event → Bool
  | Event.join_chat sid _ => (alistGet st.users sid).isNone
  | Event.join_room _ room => room != ""
  | _ => true

/-- All events of a trace satisfy okEvent at the state they arrive in. -/
def okTrace : ServerState → List Event → Bool
  | _, [] => true
  | st, e :: t => okEvent st e && okTrace (step st e).1 t

theorem send_message_state (st : ServerState) (sid b : String) :
    (send_message st sid b).1 = st := by
  unfold send_message
  cases alistGet st.users sid <;> rfl

theorem send_private_message_state (st : ServerState) (sid rid b : String) :
    (send_private_message st sid rid b).1 = st := by
  unfold send_private_message
  cases alistGet st.users sid
  · rfl
  · cases alistGet st.users rid <;> rfl

theorem typing_start_state (st : ServerState) (sid r : String) :
    (typing_start st sid r).1 = st := by
  unfold typing_start
  cases alistGet st.users sid <;> rfl

theorem typing_stop_state (st : ServerState) (sid r : String) :
    (typing_stop st sid r).1 = st := by
  unfold typing_stop
  cases alistGet st.users sid <;> rfl

theorem occIn_roomDelUser_ne_user (rooms : AList RoomData) (cr sid r x : String)
    (hxs : x ≠ sid) :
    OccIn (roomDelUser rooms cr sid) r x ↔ OccIn rooms r x := by
  by_cases hrc : r = cr
  · subst hrc
    rw [occIn_roomDelUser_same]
    simp [hxs]
  · exact occIn_roomDelUser_other rooms cr sid r x hrc

theorem occIn_roomAddUser_ne_user (rooms : AList RoomData) (room sid r x : String)
    (hxs : x ≠ sid) (hb : alistHas rooms room = true) :
    OccIn (roomAddUser rooms room sid) r x ↔ OccIn rooms r x := by
  by_cases hrr : r = room
  · subst hrr
    rw [occIn_roomAddUser_same rooms r sid x hb]
    simp [hxs]
  · exact occIn_roomAddUser_other rooms room sid r x hrr

theorem goodState_join_chat (st : ServerState) (sid u : String)
    (hg : goodState st) (hnew : alistGet st.users sid = none) :
    goodState (join_chat st sid u).1 := by
  obtain ⟨hdef, hsess, hocc⟩ := hg
  by_cases h0 : u = ""
  · simpa [join_chat, h0, goodState] using ⟨hdef, hsess, hocc⟩
  · by_cases h1 : st.users.any (fun p => p.2.username = u) = true
    · simpa [join_chat, h0, h1, goodState] using ⟨hdef, hsess, hocc⟩
    · have hstep : (join_chat st sid u).1 =
          { users := alistSet st.users sid ⟨u, DEFAULT_ROOM⟩,
            rooms := roomAddUser st.rooms DEFAULT_ROOM sid,
            sio := sioJoin st.sio DEFAULT_ROOM sid } := by
        simp [join_chat, h0, h1]
      rw [hstep]
      have hnotin : ∀ r, ¬ OccIn st.rooms r sid := by
        intro r hr
        obtain ⟨w, hw, _⟩ := (hocc r sid).mp hr
        rw [hnew] at hw
        cases hw
      refine ⟨?_, ?_, ?_⟩
      · show alistHas (roomAddUser st.rooms DEFAULT_ROOM sid) DEFAULT_ROOM = true
        simpa [alistHas_roomAddUser] using hdef
      · intro x ux hx
        change alistGet (alistSet st.users sid ⟨u, DEFAULT_ROOM⟩) x = some ux at hx
        show ux.currentRoom ≠ "" ∧
          alistHas (roomAddUser st.rooms DEFAULT_ROOM sid) ux.currentRoom = true
        by_cases hxs : x = sid
        · subst hxs
          rw [alistGet_set_self] at hx
          cases hx
          exact ⟨by simp [DEFAULT_ROOM], by simpa [alistHas_roomAddUser] using hdef⟩
        · rw [alistGet_set_ne _ _ _ _ hxs] at hx
          obtain ⟨hne, hhas⟩ := hsess x ux hx
          exact ⟨hne, by simpa [alistHas_roomAddUser] using hhas⟩
      · intro room x
        show OccIn (roomAddUser st.rooms DEFAULT_ROOM sid) room x ↔
          ∃ u', alistGet (alistSet st.users sid ⟨u, DEFAULT_ROOM⟩) x = some u' ∧
            u'.currentRoom = room
        by_cases hroom : room = DEFAULT_ROOM
        · subst hroom
          rw [occIn_roomAddUser_same st.rooms DEFAULT_ROOM sid x hdef]
          by_cases hxs : x = sid
          · subst hxs
            simp [alistGet_set_self]
          · rw [alistGet_set_ne _ _ _ _ hxs]
            simp only [hxs, false_or]
            exact hocc DEFAULT_ROOM x
        · rw [occIn_roomAddUser_other st.rooms DEFAULT_ROOM sid room x hroom]
          by_cases hxs : x = sid
          · subst hxs
            constructor
            · intro h
              exact absurd h (hnotin room)
            · rintro ⟨u', hu', hcr⟩
              rw [alistGet_set_self] at hu'
              cases hu'
              exact absurd hcr.symm hroom
          · rw [alistGet_set_ne _ _ _ _ hxs]
            exact hocc room x

/-- Core of the join_room preservation argument, abstracted over the room
table after the leave and ensure stages. -/
theorem goodState_join_room_core (st : ServerState) (user : UserData)
    (sid room : String) (roomsE : AList RoomData) (sioF : AList (List String))
    (hu : alistGet st.users sid = some user) (hr : room ≠ "")
    (hdef : alistHas st.rooms DEFAULT_ROOM = true)
    (hsess : ∀ x ux, alistGet st.users x = some ux →
        ux.currentRoom ≠ "" ∧ alistHas st.rooms ux.currentRoom = true)
    (hocc : occupantInvariant st)
    (hEocc : ∀ r x, OccIn roomsE r x ↔
        OccIn (roomDelUser st.rooms user.currentRoom sid) r x)
    (hEhasRoom : alistHas roomsE room = true)
    (hEhas : ∀ r, alistHas st.rooms r = true → alistHas roomsE r = true) :
    goodState
      { users := alistSet st.users sid { user with currentRoom := room },
        rooms := roomAddUser roomsE room sid, sio := sioF } := by
  refine ⟨?_, ?_, ?_⟩
  · show alistHas (roomAddUser roomsE room sid) DEFAULT_ROOM = true
    rw [alistHas_roomAddUser]
    exact hEhas DEFAULT_ROOM hdef
  · intro x ux hx
    change alistGet (alistSet st.users sid { user with currentRoom := room }) x
      = some ux at hx
    show ux.currentRoom ≠ "" ∧
      alistHas (roomAddUser roomsE room sid) ux.currentRoom = true
    by_cases hxs : x = sid
    · subst hxs
      rw [alistGet_set_self] at hx
      cases hx
      exact ⟨hr, by rw [alistHas_roomAddUser]; exact hEhasRoom⟩
    · rw [alistGet_set_ne _ _ _ _ hxs] at hx
      obtain ⟨hne, hhas⟩ := hsess x ux hx
      exact ⟨hne, by rw [alistHas_roomAddUser]; exact hEhas _ hhas⟩
  · intro r x
    show OccIn (roomAddUser roomsE room sid) r x ↔
      ∃ u', alistGet (alistSet st.users sid { user with currentRoom := room }) x
        = some u' ∧ u'.currentRoom = r
    by_cases hxs : x = sid
    · subst hxs
      rw [alistGet_set_self]
      have hRHS : (∃ u', some { user with currentRoom := room } = some u' ∧
          u'.currentRoom = r) ↔ room = r := by
        constructor
        · rintro ⟨u', hu', hcr'⟩
          cases hu'
          exact hcr'
        · intro h
          exact ⟨{ user with currentRoom := room }, rfl, h⟩
      rw [hRHS]
      by_cases hrr : r = room
      · subst hrr
        rw [occIn_roomAddUser_same roomsE r x x hEhasRoom]
        simp
      · rw [occIn_roomAddUser_other roomsE room x r x hrr, hEocc]
        constructor
        · intro h
          by_cases hro : r = user.currentRoom
          · subst hro
            rw [occIn_roomDelUser_same] at h
            exact absurd rfl h.2
          · rw [occIn_roomDelUser_other st.rooms user.currentRoom x r x hro] at h
            obtain ⟨u', hu', hcr'⟩ := (hocc r x).mp h
            rw [hu] at hu'
            cases hu'
            exact absurd hcr'.symm hro
        · intro h
          exact absurd h.symm hrr
    · rw [alistGet_set_ne _ _ _ _ hxs]
      rw [occIn_roomAddUser_ne_user roomsE room sid r x hxs hEhasRoom, hEocc,
        occIn_roomDelUser_ne_user st.rooms user.currentRoom sid r x hxs]
      exact hocc r x

theorem goodState_join_room (st : ServerState) (sid room : String)
    (hg : goodState st) (hr : room ≠ "") :
    goodState (join_room st sid room).1 := by
  obtain ⟨hdef, hsess, hocc⟩ := hg
  cases hu : alistGet st.users sid with
  | none => simpa [join_room, hu, goodState] using ⟨hdef, hsess, hocc⟩
  | some user =>
    obtain ⟨hcr, hhasold⟩ := hsess sid user hu
    by_cases hb : alistHas (roomDelUser st.rooms user.currentRoom sid) room = true
    · have hstep : (join_room st sid room).1 =
          { users := alistSet st.users sid { user with currentRoom := room },
            rooms := roomAddUser (roomDelUser st.rooms user.currentRoom sid)
              room sid,
            sio := sioJoin (sioLeave st.sio user.currentRoom sid) room sid } := by
        simp [join_room, hu, hcr, hb]
      rw [hstep]
      exact goodState_join_room_core st user sid room _ _ hu hr hdef hsess hocc
        (fun r x => Iff.rfl) hb
        (fun r h => by rw [alistHas_roomDelUser]; exact h)
    · have hnone : alistGet (roomDelUser st.rooms user.currentRoom sid) room
          = none := by
        rw [← alistHas_eq_false]
        revert hb
        cases alistHas (roomDelUser st.rooms user.currentRoom sid) room <;> simp
      have hstep : (join_room st sid room).1 =
          { users := alistSet st.users sid { user with currentRoom := room },
            rooms := roomAddUser
              (alistSet (roomDelUser st.rooms user.currentRoom sid) room
                ⟨room, []⟩) room sid,
            sio := sioJoin (sioLeave st.sio user.currentRoom sid) room sid } := by
        simp [join_room, hu, hcr, hb]
      rw [hstep]
      refine goodState_join_room_core st user sid room _ _ hu hr hdef hsess hocc
        (fun r x => occIn_set_empty _ _ _ _ hnone) ?_ ?_
      · rw [alistHas_set]
        exact Or.inl rfl
      · intro r h
        rw [alistHas_set]
        right
        rwa [alistHas_roomDelUser]

theorem goodState_disconnect (st : ServerState) (sid : String)
    (hg : goodState st) : goodState (disconnect st sid).1 := by
  obtain ⟨hdef, hsess, hocc⟩ := hg
  cases hu : alistGet st.users sid with
  | none => simpa [disconnect, hu, goodState] using ⟨hdef, hsess, hocc⟩
  | some user =>
    obtain ⟨hcr, hhas⟩ := hsess sid user hu
    have hstep : (disconnect st sid).1 =
        { users := alistDelete st.users sid,
          rooms := roomDelUser st.rooms user.currentRoom sid,
          sio := sioLeaveAll st.sio sid } := by
      simp [disconnect, hu, hcr, hhas]
    rw [hstep]
    refine ⟨?_, ?_, ?_⟩
    · show alistHas (roomDelUser st.rooms user.currentRoom sid) DEFAULT_ROOM = true
      rwa [alistHas_roomDelUser]
    · intro x ux hx
      change alistGet (alistDelete st.users sid) x = some ux at hx
      show ux.currentRoom ≠ "" ∧
        alistHas (roomDelUser st.rooms user.currentRoom sid) ux.currentRoom = true
      by_cases hxs : x = sid
      · subst hxs
        rw [alistGet_delete_self] at hx
        cases hx
      · rw [alistGet_delete_ne _ _ _ hxs] at hx
        obtain ⟨hne, hh⟩ := hsess x ux hx
        exact ⟨hne, by rwa [alistHas_roomDelUser]⟩
    · intro r x
      show OccIn (roomDelUser st.rooms user.currentRoom sid) r x ↔
        ∃ u', alistGet (alistDelete st.users sid) x = some u' ∧ u'.currentRoom = r
      by_cases hxs : x = sid
      · subst hxs
        rw [alistGet_delete_self]
        constructor
        · intro h
          by_cases hro : r = user.currentRoom
          · subst hro
            rw [occIn_roomDelUser_same] at h
            exact absurd rfl h.2
          · rw [occIn_roomDelUser_other st.rooms user.currentRoom x r x hro]
              at h
            obtain ⟨u', hu', hcr'⟩ := (hocc r x).mp h
            rw [hu] at hu'
            cases hu'
            exact absurd hcr'.symm hro
        · rintro ⟨u', hu', _⟩
          cases hu'
      · rw [alistGet_delete_ne _ _ _ hxs,
          occIn_roomDelUser_ne_user st.rooms user.currentRoom sid r x hxs]
        exact hocc r x

theorem goodState_step (st : ServerState) (e : Event)
    (hg : goodState st) (hok : okEvent st e = true) :
    goodState (step st e).1 := by
  cases e with
  | join_chat sid u =>
    have hnew : alistGet st.users sid = none := by
      simpa [okEvent, Option.isNone_iff_eq_none] using hok
    exact goodState_join_chat st sid u hg hnew
  | join_room sid room =>
    have hr : room ≠ "" := by
      simpa [okEvent] using hok
  /- hok says room != "" -/
    exact goodState_join_room st sid room hg hr
  | send_message sid b => rw [show (step st (Event.send_message sid b)).1 =
      (send_message st sid b).1 from rfl, send_message_state]; exact hg
  | send_private_message sid rid b =>
    rw [show (step st (Event.send_private_message sid rid b)).1 =
      (send_private_message st sid rid b).1 from rfl, send_private_message_state]
    exact hg
  | typing_start sid r => rw [show (step st (Event.typing_start sid r)).1 =
      (typing_start st sid r).1 from rfl, typing_start_state]; exact hg
  | typing_stop sid r => rw [show (step st (Event.typing_stop sid r)).1 =
      (typing_stop st sid r).1 from rfl, typing_stop_state]; exact hg
  | disconnect sid => exact goodState_disconnect st sid hg

theorem goodState_runFrom (es : List Event) (st : ServerState)
    (hg : goodState st) (hok : okTrace st es = true) :
    goodState (runFrom st es) := by
  induction es generalizing st with
  | nil => simpa [runFrom] using hg
  | cons e t ih =>
    rw [okTrace, Bool.and_eq_true] at hok
    have h1 : goodState (step st e).1 := goodState_step st e hg hok.1
    have : runFrom st (e :: t) = runFrom (step st e).1 t := rfl
    rw [this]
    exact ih (step st e).1 h1 hok.2

theorem goodState_init : goodState initState := by
  refine ⟨by decide, ?_, ?_⟩
  · intro sid u h
    simp [initState, alistGet] at h
  · intro room sid
    constructor
    · rintro ⟨rd, hrd, hmem⟩
      show ∃ u, alistGet ([] : AList UserData) sid = some u ∧ u.currentRoom = room
      by_cases h : DEFAULT_ROOM = room
      · rw [show alistGet initState.rooms room
            = some ⟨"General Chat", []⟩ from by simp [initState, alistGet, h]] at hrd
        cases hrd
        simp at hmem
      · rw [show alistGet initState.rooms room = none from by
            simp [initState, alistGet, h]] at hrd
        cases hrd
    · rintro ⟨u, hu, _⟩
      cases hu

/-- Claim C1, amended: along any event trace in which every join_chat comes
from a connection that has no session yet and every join_room carries a
non-empty room id, every reachable state satisfies the occupancy invariant —
a connection-id is in a room's occupant set iff some active session has that
connection-id and that currentRoom.  (The unamended claim is refuted by
occupant_invariant_cex below.) -/
theorem occupant_invariant_of_okTrace (es : List Event)
    (hok : okTrace initState es = true) :
    occupantInvariant (run es) :=
  (goodState_runFrom es initState goodState_init hok).2.2

/-- Witness for occupant_invariant_of_okTrace at a concrete two-event trace. -/
theorem occupant_invariant_witness :
    okTrace initState
      [Event.join_chat "c1" "alice", Event.join_room "c1" "dev"] = true ∧
    occupantInvariant
      (run [Event.join_chat "c1" "alice", Event.join_room "c1" "dev"]) :=
  ⟨by decide, occupant_invariant_of_okTrace
    [Event.join_chat "c1" "alice", Event.join_room "c1" "dev"] (by decide)⟩

/-- Counterexample to claim C1 as stated: after the reachable trace
join_chat(c1,"alice"); join_room(c1,"dev"); join_chat(c1,"bob") — the third
event re-registers the still-active connection — c1 is still in room "dev"'s
occupant set while its session's currentRoom is "general", so the iff fails
at room "dev". -/
theorem occupant_invariant_cex :
    ¬ occupantInvariant (run [Event.join_chat "c1" "alice",
      Event.join_room "c1" "dev", Event.join_chat "c1" "bob"]) := by
  intro h
  have hin : OccIn (run [Event.join_chat "c1" "alice",
      Event.join_room "c1" "dev", Event.join_chat "c1" "bob"]).rooms
      "dev" "c1" := by decide
  obtain ⟨u, hu, hcr⟩ := (h "dev" "c1").mp hin
  have hget : alistGet (run [Event.join_chat "c1" "alice",
      Event.join_room "c1" "dev", Event.join_chat "c1" "bob"]).users "c1"
      = some ⟨"bob", "general"⟩ := by decide
  rw [hget] at hu
  cases hu
  exact absurd hcr (by decide)

/-- Claim C2, amended: the join_chat handler never checks whether the caller
already has a session.  From an Active connection, a join_chat with a
non-empty name not used by any session is accepted: it replaces the caller's
session (currentRoom reset to the default room) and emits no error; a name
already in use is still rejected with the name-taken error and leaves the
state unchanged.  (The original claim is refuted by
join_chat_active_replaces_cex.) -/
theorem join_chat_active_replaces (st : ServerState) (sid name : String)
    (u : UserData) (hu : alistGet st.users sid = some u) (hne : name ≠ "") :
    ((st.users.any (fun p => p.2.username = name)) = false →
      alistGet (join_chat st sid name).1.users sid
          = some ⟨name, DEFAULT_ROOM⟩ ∧
      (join_chat st sid name).2.countP (fun em => isError em.payload) = 0) ∧
    ((st.users.any (fun p => p.2.username = name)) = true →
      join_chat st sid name = (st, [⟨Target.one sid, Payload.error_message
        "Username already taken. Please choose another."⟩])) := by
  constructor
  · intro hfresh
    constructor
    · have h1 : (join_chat st sid name).1.users
          = alistSet st.users sid ⟨name, DEFAULT_ROOM⟩ := by
        simp [join_chat, hne, hfresh]
      rw [h1, alistGet_set_self]
    · simp [join_chat, hne, hfresh, isError]
  · intro htaken
    simp [join_chat, hne, htaken]

/-- Witness for join_chat_active_replaces: c1 is active as alice, then
re-registers as bob. -/
theorem join_chat_active_replaces_witness :
    alistGet (join_chat (run [Event.join_chat "c1" "alice"]) "c1" "bob").1.users
        "c1" = some ⟨"bob", DEFAULT_ROOM⟩ ∧
    (join_chat (run [Event.join_chat "c1" "alice"]) "c1" "bob").2.countP
        (fun em => isError em.payload) = 0 :=
  (join_chat_active_replaces (run [Event.join_chat "c1" "alice"]) "c1" "bob"
    ⟨"alice", "general"⟩ (by decide) (by decide)).1 (by decide)

/-- Counterexample to claim C2 as stated: after join_chat(c1,"alice"), c1 is
Active, yet a second join_chat(c1,"bob") is accepted — no error_message is
emitted and c1's session is replaced by (bob, general). -/
theorem join_chat_active_replaces_cex :
    alistGet (run [Event.join_chat "c1" "alice"]).users "c1"
        = some ⟨"alice", "general"⟩ ∧
    (step (run [Event.join_chat "c1" "alice"])
        (Event.join_chat "c1" "bob")).2.countP
        (fun em => isError em.payload) = 0 ∧
    alistGet (step (run [Event.join_chat "c1" "alice"])
        (Event.join_chat "c1" "bob")).1.users "c1"
        = some ⟨"bob", "general"⟩ := by
  refine ⟨by decide, by decide, by decide⟩

/-- Claim C3, amended: join_chat rejects exactly the falsy display name, i.e.
the empty string, with the empty-name error sent to the caller only and no
state change; a whitespace-only name is truthy and is NOT rejected (the code
never trims).  This theorem covers the rejection half; the counterexample
join_chat_blank_cex shows the whitespace half of the original claim fails. -/
theorem join_chat_empty_name (st : ServerState) (sid : String) :
    join_chat st sid "" = (st, [⟨Target.one sid,
      Payload.error_message "Username cannot be empty."⟩]) := by
  simp [join_chat]

/-- Counterexample to claim C3 as stated: join_chat with the whitespace-only
name " " emits no error and creates a session named " ". -/
theorem join_chat_blank_cex :
    (step initState (Event.join_chat "c1" " ")).2.countP
        (fun em => isError em.payload) = 0 ∧
    alistGet (step initState (Event.join_chat "c1" " ")).1.users "c1"
        = some ⟨" ", "general"⟩ := by
  refine ⟨by decide, by decide⟩

/-- Claim C4: whenever a handler emits an error_message, the whole server
state is unchanged by the handler and every error_message it emits is
unicast to the originating connection. -/
theorem error_reply_unicast_no_mutation (st : ServerState) (e : Event)
    (h : ∃ em ∈ (step st e).2, isError em.payload = true) :
    (step st e).1 = st ∧
    ∀ em ∈ (step st e).2, isError em.payload = true →
      em.target = Target.one (eventSid e) := by
  cases e with
  | join_chat sid u =>
    by_cases h0 : u = ""
    · refine ⟨by simp [step, join_chat, h0], ?_⟩
      intro em hem herr
      simp [step, join_chat, h0] at hem
      subst hem
      rfl
    · by_cases h1 : st.users.any (fun p => p.2.username = u) = true
      · refine ⟨by simp [step, join_chat, h0, h1], ?_⟩
        intro em hem herr
        simp [step, join_chat, h0, h1] at hem
        subst hem
        rfl
      · exfalso
        obtain ⟨em, hem, herr⟩ := h
        simp [step, join_chat, h0, h1] at hem
        rcases hem with h'|h'|h'|h'|h' <;> (subst h'; simp [isError] at herr)
  | join_room sid r =>
    cases hu : alistGet st.users sid with
    | none =>
      refine ⟨by simp [step, join_room, hu], ?_⟩
      intro em hem herr
      simp [step, join_room, hu] at hem
      subst hem
      rfl
    | some user =>
      exfalso
      obtain ⟨em, hem, herr⟩ := h
      by_cases hcr : user.currentRoom = ""
      · by_cases hb : alistHas st.rooms r = true
        · simp [step, join_room, hu, hcr, hb] at hem
          rcases hem with h'|h'|h' <;> (subst h'; simp [isError] at herr)
        · simp [step, join_room, hu, hcr, hb] at hem
          rcases hem with h'|h'|h'|h' <;> (subst h'; simp [isError] at herr)
      · by_cases hb : alistHas
            (roomDelUser st.rooms user.currentRoom sid) r = true
        · simp [step, join_room, hu, hcr, hb] at hem
          rcases hem with h'|h'|h'|h'|h' <;> (subst h'; simp [isError] at herr)
        · simp [step, join_room, hu, hcr, hb] at hem
          rcases hem with h'|h'|h'|h'|h'|h' <;>
            (subst h'; simp [isError] at herr)
  | send_message sid b =>
    cases hu : alistGet st.users sid with
    | none =>
      refine ⟨by simp [step, send_message, hu], ?_⟩
      intro em hem herr
      simp [step, send_message, hu] at hem
      subst hem
      rfl
    | some user =>
      exfalso
      obtain ⟨em, hem, herr⟩ := h
      simp [step, send_message, hu] at hem
      subst hem
      simp [isError] at herr
  | send_private_message sid rid b =>
    cases hu : alistGet st.users sid with
    | none =>
      refine ⟨by simp [step, send_private_message, hu], ?_⟩
      intro em hem herr
      simp [step, send_private_message, hu] at hem
      subst hem
      rfl
    | some senderUser =>
      cases hv : alistGet st.users rid with
      | none =>
        refine ⟨by simp [step, send_private_message, hu, hv], ?_⟩
        intro em hem herr
        simp [step, send_private_message, hu, hv] at hem
        subst hem
        rfl
      | some receiverUser =>
        exfalso
        obtain ⟨em, hem, herr⟩ := h
        simp [step, send_private_message, hu, hv] at hem
        rcases hem with h'|h' <;> (subst h'; simp [isError] at herr)
  | typing_start sid r =>
    exfalso
    obtain ⟨em, hem, herr⟩ := h
    cases hu : alistGet st.users sid with
    | none => simp [step, typing_start, hu] at hem
    | some user =>
      simp [step, typing_start, hu] at hem
      subst hem
      simp [isError] at herr
  | typing_stop sid r =>
    exfalso
    obtain ⟨em, hem, herr⟩ := h
    cases hu : alistGet st.users sid with
    | none => simp [step, typing_stop, hu] at hem
    | some user =>
      simp [step, typing_stop, hu] at hem
      subst hem
      simp [isError] at herr
  | disconnect sid =>
    exfalso
    obtain ⟨em, hem, herr⟩ := h
    cases hu : alistGet st.users sid with
    | none => simp [step, disconnect, hu] at hem
    | some user =>
      by_cases hc : user.currentRoom ≠ "" ∧ alistHas st.rooms user.currentRoom
          = true
      · simp [step, disconnect, hu, hc] at hem
        rcases hem with h'|h'|h' <;> (subst h'; simp [isError] at herr)
      · simp [step, disconnect, hu, hc] at hem
        subst hem
        simp [isError] at herr

/-- Witness for error_reply_unicast_no_mutation: a join_room from an
unregistered connection in the startup state. -/
theorem error_reply_unicast_no_mutation_witness :
    (step initState (Event.join_room "c9" "dev")).1 = initState ∧
    ∀ em ∈ (step initState (Event.join_room "c9" "dev")).2,
      isError em.payload = true →
        em.target = Target.one (eventSid (Event.join_room "c9" "dev")) :=
  error_reply_unicast_no_mutation initState (Event.join_room "c9" "dev")
    ⟨⟨Target.one "c9", Payload.error_message "Please set your username first."⟩,
      by decide, by decide⟩

/-- Claim C6: with an active sender x, send_private_message to an active
recipient y delivers exactly two receive_message events, unicast to x and to
y, carrying the same message with isPrivate, the sender's name and the
recipient's name; with an offline y it delivers nothing but one
error_message to x, and the state is unchanged in both cases. -/
theorem send_private_message_delivery (st : ServerState) (x y body : String)
    (ux : UserData) (hx : alistGet st.users x = some ux) :
    (∀ uy, alistGet st.users y = some uy →
      send_private_message st x y body = (st,
        [⟨Target.one x, Payload.receive_message
            { sender := ux.username, message := body, isPrivate := true,
              receiver := some uy.username }⟩,
         ⟨Target.one y, Payload.receive_message
            { sender := ux.username, message := body, isPrivate := true,
              receiver := some uy.username }⟩])) ∧
    (alistGet st.users y = none →
      send_private_message st x y body = (st,
        [⟨Target.one x, Payload.error_message
            ("User with ID " ++ y ++ " is not online.")⟩])) := by
  constructor
  · intro uy hy
    simp [send_private_message, hx, hy]
  · intro hy
    simp [send_private_message, hx, hy]

/-- Witness for send_private_message_delivery: alice messages bob, and
messages an offline id. -/
theorem send_private_message_delivery_witness :
    send_private_message (run [Event.join_chat "a1" "alice",
        Event.join_chat "b1" "bob"]) "a1" "b1" "hi"
      = (run [Event.join_chat "a1" "alice", Event.join_chat "b1" "bob"],
        [⟨Target.one "a1", Payload.receive_message
            { sender := "alice", message := "hi", isPrivate := true,
              receiver := some "bob" }⟩,
         ⟨Target.one "b1", Payload.receive_message
            { sender := "alice", message := "hi", isPrivate := true,
              receiver := some "bob" }⟩]) ∧
    send_private_message (run [Event.join_chat "a1" "alice",
        Event.join_chat "b1" "bob"]) "a1" "zz" "hi"
      = (run [Event.join_chat "a1" "alice", Event.join_chat "b1" "bob"],
        [⟨Target.one "a1",
          Payload.error_message "User with ID zz is not online."⟩]) :=
  ⟨(send_private_message_delivery (run [Event.join_chat "a1" "alice",
      Event.join_chat "b1" "bob"]) "a1" "b1" "hi" ⟨"alice", "general"⟩
      (by decide)).1 ⟨"bob", "general"⟩ (by decide),
   (send_private_message_delivery (run [Event.join_chat "a1" "alice",
      Event.join_chat "b1" "bob"]) "a1" "zz" "hi" ⟨"alice", "general"⟩
      (by decide)).2 (by decide)⟩

/-- Claim C10: an active connection x may private-message its own
connection-id; x counts as an online recipient and the handler emits the
same receive_message twice, both unicast to x (sender copy and recipient
copy), with receiver equal to x's own display name. -/
theorem send_private_message_self (st : ServerState) (x body : String)
    (ux : UserData) (hx : alistGet st.users x = some ux) :
    send_private_message st x x body = (st,
      [⟨Target.one x, Payload.receive_message
          { sender := ux.username, message := body, isPrivate := true,
            receiver := some ux.username }⟩,
       ⟨Target.one x, Payload.receive_message
          { sender := ux.username, message := body, isPrivate := true,
            receiver := some ux.username }⟩]) := by
  simp [send_private_message, hx]

/-- Witness for send_private_message_self: alice messages herself. -/
theorem send_private_message_self_witness :
    send_private_message (run [Event.join_chat "a1" "alice"]) "a1" "a1" "note"
      = (run [Event.join_chat "a1" "alice"],
        [⟨Target.one "a1", Payload.receive_message
            { sender := "alice", message := "note", isPrivate := true,
              receiver := some "alice" }⟩,
         ⟨Target.one "a1", Payload.receive_message
            { sender := "alice", message := "note", isPrivate := true,
              receiver := some "alice" }⟩]) :=
  send_private_message_self (run [Event.join_chat "a1" "alice"]) "a1" "note"
    ⟨"alice", "general"⟩ (by decide)

/-- Claim C9: typing_start and typing_stop mutate nothing, their
typing_status relay is never delivered to the originating connection and
reaches only other members of the named room, and an originator without a
session produces no emission at all (in particular no error reply). -/
theorem typing_never_echoes (st : ServerState) (sid room : String) :
    (typing_start st sid room).1 = st ∧ (typing_stop st sid room).1 = st ∧
    (∀ em ∈ (typing_start st sid room).2 ++ (typing_stop st sid room).2,
      (∀ c, DeliveredTo st em c → c ≠ sid ∧ c ∈ sioGet st.sio room) ∧
      isError em.payload = false) ∧
    (alistGet st.users sid = none →
      (typing_start st sid room).2 = [] ∧ (typing_stop st sid room).2 = []) := by
  refine ⟨typing_start_state st sid room, typing_stop_state st sid room, ?_, ?_⟩
  · intro em hem
    cases hu : alistGet st.users sid with
    | none => simp [typing_start, typing_stop, hu] at hem
    | some user =>
      simp [typing_start, typing_stop, hu] at hem
      rcases hem with h'|h' <;> subst h' <;>
        exact ⟨fun c hc => ⟨hc.2, hc.1⟩, rfl⟩
  · intro hu
    simp [typing_start, typing_stop, hu]

/-- Witness for typing_never_echoes: bob receives alice's typing signal (so
the relay reaches a non-originator room member), and an unregistered typist
produces no output. -/
theorem typing_never_echoes_witness :
    ("b1" ≠ "a1" ∧ "b1" ∈ sioGet (run [Event.join_chat "a1" "alice",
        Event.join_chat "b1" "bob"]).sio "general") ∧
    (typing_start initState "c9" "general").2 = [] :=
  ⟨((typing_never_echoes (run [Event.join_chat "a1" "alice",
      Event.join_chat "b1" "bob"]) "a1" "general").2.2.1
      ⟨Target.roomExcept "general" "a1",
        Payload.typing_status "alice" true "general"⟩
      (by decide)).1 "b1" ⟨by decide, by decide⟩,
   ((typing_never_echoes initState "c9" "general").2.2.2 (by decide)).1⟩

/-! ### The join_room step contract (claim C5) -/

theorem alistGet_mem (l : AList α) (k : String) (v : α)
    (h : alistGet l k = some v) : (k, v) ∈ l := by
  induction l with
  | nil => cases h
  | cons p t ih =>
    obtain ⟨k1, v1⟩ := p
    by_cases h1 : k1 = k
    · subst h1
      rw [alistGet, if_pos rfl] at h
      cases h
      exact List.mem_cons_self _ _
    · rw [alistGet, if_neg h1] at h
      exact List.mem_cons_of_mem _ (ih h)

theorem mem_alistSet (l : AList α) (k : String) (v : α) (p : String × α)
    (h : p ∈ alistSet l k v) : p = (k, v) ∨ p ∈ l := by
  induction l with
  | nil => simpa [alistSet] using h
  | cons q t ih =>
    obtain ⟨k1, v1⟩ := q
    by_cases h1 : k1 = k
    · subst h1
      rw [alistSet, if_pos rfl] at h
      rcases List.mem_cons.mp h with h'|h'
      · exact Or.inl h'
      · exact Or.inr (List.mem_cons_of_mem _ h')
    · rw [alistSet, if_neg h1] at h
      rcases List.mem_cons.mp h with h'|h'
      · exact Or.inr (h' ▸ List.mem_cons_self _ _)
      · rcases ih h' with h''|h''
        · exact Or.inl h''
        · exact Or.inr (List.mem_cons_of_mem _ h'')

/-- The Room Directory operation of the spec: resolve each occupant
connection-id through the registry, silently dropping unresolvable ids
(spec section 4.2). -/
def occupantDisplayNames (users : AList UserData) (occ : List String) :
    List String :=
  occ.filterMap (fun id => (alistGet users id).map UserData.username)

/-- When no session carries an empty display name (always true of reachable
states, since join_chat rejects the empty name), the code's
filter(Boolean) resolution agrees with the spec's occupantDisplayNames. -/
theorem occupantNames_eq_displayNames (users : AList UserData)
    (h : ∀ p ∈ users, p.2.username ≠ "") (occ : List String) :
    occupantNames users occ = occupantDisplayNames users occ := by
  unfold occupantNames occupantDisplayNames
  induction occ with
  | nil => rfl
  | cons a t ih =>
    cases hx : alistGet users a with
    | none => simpa [hx] using ih
    | some u =>
      have hne : u.username ≠ "" := h (a, u) (alistGet_mem users a u hx)
      simpa [hx, hne] using ih

/-- The JoinRoom contract of spec section 4.3, transcribed step by step from
the spec text for an already-validated session: (1) remove the connection
from its current room's occupant set (with the transport unsubscribe) and
broadcast to the old room the updated occupant-name list then the system
has-left message; (2) ensure the target room exists and, if this created it,
broadcast the updated full room-id list to all connections; (3) set the
session's currentRoom and add the connection to the new room's occupant set
(with the transport subscribe); (4) broadcast to the new room the updated
occupant-name list then the system has-joined message; (5) confirm the
change to the requester only. -/
def join_room_spec (st : ServerState) (sid roomId : String) :
    ServerState × List Emit :=
  match alistGet st.users sid with
  | none =>
    (st, [⟨Target.one sid,
      Payload.error_message "Please set your username first."⟩])
  | some user =>
    let oldRoom := user.currentRoom
    let rooms1 := roomDelUser st.rooms oldRoom sid
    let sio1 := sioLeave st.sio oldRoom sid
    let leaveEmits : List Emit :=
      [⟨Target.room oldRoom, Payload.room_users_update oldRoom
          (occupantDisplayNames st.users (roomUsersList rooms1 oldRoom))⟩,
       ⟨Target.room oldRoom, Payload.receive_message
         { sender := "System",
           message := user.username ++ " has left the room.",
           room := some oldRoom }⟩]
    let rooms2 := if alistHas rooms1 roomId then rooms1
      else alistSet rooms1 roomId ⟨roomId, []⟩
    let ensureEmits : List Emit := if alistHas rooms1 roomId then []
      else [⟨Target.all, Payload.available_rooms (alistKeys rooms2)⟩]
    let users3 := alistSet st.users sid { user with currentRoom := roomId }
    let rooms3 := roomAddUser rooms2 roomId sid
    let sio3 := sioJoin sio1 roomId sid
    ({ users := users3, rooms := rooms3, sio := sio3 },
      leaveEmits ++ ensureEmits ++
      [⟨Target.room roomId, Payload.room_users_update roomId
          (occupantDisplayNames users3 (roomUsersList rooms3 roomId))⟩,
       ⟨Target.room roomId, Payload.receive_message
         { sender := "System",
           message := user.username ++ " has joined the room.",
           room := some roomId }⟩,
       ⟨Target.one sid, Payload.room_changed roomId⟩])

/-- Claim C5, amended: for an Active connection whose session currentRoom is
non-empty (which the leave guard of the handler tests; it can only be empty
if the connection previously joined the room with the empty-string id), the
join_room handler coincides with the straight-line five-step contract of the
spec, steps and emissions in the same strict order.  The hypothesis on
display names holds in every reachable state since empty names are rejected
at registration.  (The unamended claim — step (1) unconditionally — is
refuted by join_room_steps_cex.) -/
theorem join_room_follows_spec (st : ServerState) (sid room : String)
    (u : UserData) (hu : alistGet st.users sid = some u)
    (hcr : u.currentRoom ≠ "")
    (hnames : ∀ p ∈ st.users, p.2.username ≠ "") :
    join_room st sid room = join_room_spec st sid room := by
  have hnames3 : ∀ p ∈ alistSet st.users sid { u with currentRoom := room },
      p.2.username ≠ "" := by
    intro p hp
    rcases mem_alistSet st.users sid { u with currentRoom := room } p hp with
      h'|h'
    · subst h'
      exact hnames (sid, u) (alistGet_mem st.users sid u hu)
    · exact hnames p h'
  by_cases hb : alistHas (roomDelUser st.rooms u.currentRoom sid) room = true
  · simp [join_room, join_room_spec, hu, hcr, hb,
      occupantNames_eq_displayNames st.users hnames,
      occupantNames_eq_displayNames _ hnames3]
  · simp [join_room, join_room_spec, hu, hcr, hb,
      occupantNames_eq_displayNames st.users hnames,
      occupantNames_eq_displayNames _ hnames3]

/-- Witness for join_room_follows_spec: alice switches from general to dev. -/
theorem join_room_follows_spec_witness :
    join_room (run [Event.join_chat "c1" "alice"]) "c1" "dev"
      = join_room_spec (run [Event.join_chat "c1" "alice"]) "c1" "dev" :=
  join_room_follows_spec (run [Event.join_chat "c1" "alice"]) "c1" "dev"
    ⟨"alice", "general"⟩ (by decide) (by decide)
    (by
      intro p hp
      rw [show (run [Event.join_chat "c1" "alice"]).users
          = [("c1", ⟨"alice", "general"⟩)] from by decide] at hp
      have hp' := List.mem_singleton.mp hp
      subst hp'
      decide)

/-- Counterexample to claim C5 as stated: in the reachable state after
join_chat(c1,"alice"); join_room(c1,""), the session's currentRoom is the
empty string, and the next join_room(c1,"x") skips step (1) entirely — the
handler output differs from the five-step contract (4 emissions instead of
6, no leave broadcasts) and c1 is never removed from room ""'s occupant
set. -/
theorem join_room_steps_cex :
    (step (run [Event.join_chat "c1" "alice", Event.join_room "c1" ""])
        (Event.join_room "c1" "x")).2.length = 4 ∧
    "c1" ∈ roomUsersList (step (run [Event.join_chat "c1" "alice",
        Event.join_room "c1" ""]) (Event.join_room "c1" "x")).1.rooms "" ∧
    join_room (run [Event.join_chat "c1" "alice", Event.join_room "c1" ""])
        "c1" "x"
      ≠ join_room_spec (run [Event.join_chat "c1" "alice",
        Event.join_room "c1" ""]) "c1" "x" := by
  refine ⟨by decide, by decide, by decide⟩

/-! ### Registration sequences (claim C7) -/

theorem nodup_usernames_set (l : AList UserData) (sid : String) (v : UserData)
    (h3 : (l.map (fun q => q.2.username)).Nodup)
    (hfr : ∀ q ∈ l, q.2.username ≠ v.username) :
    ((alistSet l sid v).map (fun q => q.2.username)).Nodup := by
  induction l with
  | nil => simp [alistSet]
  | cons p t ih =>
    obtain ⟨k1, v1⟩ := p
    rw [List.map_cons, List.nodup_cons] at h3
    by_cases h1 : k1 = sid
    · rw [alistSet, if_pos h1, List.map_cons, List.nodup_cons]
      refine ⟨?_, h3.2⟩
      intro hmem
      obtain ⟨q, hq, hqe⟩ := List.mem_map.mp hmem
      exact absurd hqe (hfr q (List.mem_cons_of_mem _ hq))
    · rw [alistSet, if_neg h1, List.map_cons, List.nodup_cons]
      constructor
      · intro hmem
        obtain ⟨q, hq, hqe⟩ := List.mem_map.mp hmem
        rcases mem_alistSet t sid v q hq with h'|h'
        · subst h'
          exact hfr (k1, v1) (List.mem_cons_self _ _) hqe.symm
        · exact h3.1 (List.mem_map.mpr ⟨q, h', hqe⟩)
      · exact ih h3.2 (fun q hq => hfr q (List.mem_cons_of_mem _ hq))

/-- Induction core for claim C7: from any state whose session names are
pairwise distinct and disjoint from the names still to be registered, a
sequence of join_chat calls with pairwise-distinct non-empty names all
succeed (no error_message anywhere) and the final session names are
pairwise distinct. -/
theorem join_chat_seq_aux (calls : List (String × String)) (st : ServerState)
    (h1 : (calls.map Prod.snd).Nodup)
    (h2 : ∀ p ∈ calls, p.2 ≠ "")
    (h3 : (st.users.map (fun q => q.2.username)).Nodup)
    (h4 : ∀ q ∈ st.users, ∀ p ∈ calls, q.2.username ≠ p.2) :
    (∀ out ∈ stepsOutputs st (calls.map (fun p => Event.join_chat p.1 p.2)),
        ∀ em ∈ out, isError em.payload = false) ∧
    ((runFrom st (calls.map (fun p => Event.join_chat p.1 p.2))).users.map
        (fun q => q.2.username)).Nodup := by
  induction calls generalizing st with
  | nil =>
    refine ⟨?_, by simpa [runFrom] using h3⟩
    intro out hout
    simp [stepsOutputs] at hout
  | cons c t ih =>
    obtain ⟨sid, name⟩ := c
    have hne : name ≠ "" := h2 (sid, name) (List.mem_cons_self _ _)
    have hfresh : st.users.any (fun q => q.2.username = name) = false := by
      cases hany : st.users.any (fun q => q.2.username = name) with
      | false => rfl
      | true =>
        obtain ⟨q, hq, hqn⟩ := List.any_eq_true.mp hany
        exact absurd (of_decide_eq_true hqn)
          (h4 q hq (sid, name) (List.mem_cons_self _ _))
    have hstep1 : (step st (Event.join_chat sid name)).1 =
        { users := alistSet st.users sid ⟨name, DEFAULT_ROOM⟩,
          rooms := roomAddUser st.rooms DEFAULT_ROOM sid,
          sio := sioJoin st.sio DEFAULT_ROOM sid } := by
      simp [step, join_chat, hne, hfresh]
    rw [List.map_cons, List.nodup_cons] at h1
    have h3' : ((step st (Event.join_chat sid name)).1.users.map
        (fun q => q.2.username)).Nodup := by
      rw [hstep1]
      exact nodup_usernames_set st.users sid ⟨name, DEFAULT_ROOM⟩ h3
        (fun q hq => h4 q hq (sid, name) (List.mem_cons_self _ _))
    have h4' : ∀ q ∈ (step st (Event.join_chat sid name)).1.users,
        ∀ p ∈ t, q.2.username ≠ p.2 := by
      rw [hstep1]
      intro q hq p hp
      rcases mem_alistSet st.users sid ⟨name, DEFAULT_ROOM⟩ q hq with h'|h'
      · subst h'
        intro he
        exact h1.1 (List.mem_map.mpr ⟨p, hp, he.symm⟩)
      · exact h4 q h' p (List.mem_cons_of_mem _ hp)
    have ihres := ih (step st (Event.join_chat sid name)).1 h1.2
      (fun p hp => h2 p (List.mem_cons_of_mem _ hp)) h3' h4'
    refine ⟨?_, ihres.2⟩
    intro out hout em hem
    rw [List.map_cons, stepsOutputs] at hout
    rcases List.mem_cons.mp hout with h'|h'
    · subst h'
      simp [step, join_chat, hne, hfresh] at hem
      rcases hem with h'|h'|h'|h'|h' <;> subst h' <;> rfl
    · exact ihres.1 out h' em hem

/-- Claim C7: (i) every sequence of join_chat calls with pairwise-distinct
non-empty display names (display names are non-empty strings by the data
model) succeeds in full — no error_message is ever emitted — and leaves
sessions with pairwise-distinct display names; (ii) in any state, a
join_chat whose non-empty name equals the display name of some existing
session is rejected with the name-taken error, leaving the state
unchanged — hence a duplicate is rejected regardless of the order of
calls. -/
theorem join_chat_distinct_names (calls : List (String × String))
    (h1 : (calls.map Prod.snd).Nodup) (h2 : ∀ p ∈ calls, p.2 ≠ "") :
    ((∀ out ∈ stepsOutputs initState
          (calls.map (fun p => Event.join_chat p.1 p.2)),
        ∀ em ∈ out, isError em.payload = false) ∧
      ((run (calls.map (fun p => Event.join_chat p.1 p.2))).users.map
        (fun q => q.2.username)).Nodup) ∧
    (∀ st sid name, name ≠ "" → (∃ q ∈ st.users, q.2.username = name) →
      join_chat st sid name = (st, [⟨Target.one sid, Payload.error_message
        "Username already taken. Please choose another."⟩])) := by
  constructor
  · exact join_chat_seq_aux calls initState h1 h2 (by decide)
      (fun q hq => by simp [initState] at hq)
  · intro st sid name hne htaken
    have hany : st.users.any (fun p => p.2.username = name) = true := by
      rw [List.any_eq_true]
      obtain ⟨q, hq, he⟩ := htaken
      exact ⟨q, hq, by simp [he]⟩
    simp [join_chat, hne, hany]

/-- Witness for join_chat_distinct_names: alice then bob register, and bob's
name is afterwards rejected for a third connection. -/
theorem join_chat_distinct_names_witness :
    ((∀ out ∈ stepsOutputs initState
          ([("a1", "alice"), ("b1", "bob")].map
            (fun p => Event.join_chat p.1 p.2)),
        ∀ em ∈ out, isError em.payload = false) ∧
      ((run ([("a1", "alice"), ("b1", "bob")].map
          (fun p => Event.join_chat p.1 p.2))).users.map
        (fun q => q.2.username)).Nodup) ∧
    (∀ st sid name, name ≠ "" → (∃ q ∈ st.users, q.2.username = name) →
      join_chat st sid name = (st, [⟨Target.one sid, Payload.error_message
        "Username already taken. Please choose another."⟩])) :=
  join_chat_distinct_names [("a1", "alice"), ("b1", "bob")] (by decide)
    (by decide)

/-! ### join_room idempotence (claim C8) -/

/-- Whether a payload is a room_users_update. -/
def isRoomUsersUpdate : Payload → Bool
  | Payload.room_users_update _ _ => true
  | _ => false

theorem alistGet_roomAddUser_self (rooms : AList RoomData) (room sid : String)
    (rd : RoomData) (h : alistGet rooms room = some rd) :
    alistGet (roomAddUser rooms room sid) room
      = some { rd with users := setAdd rd.users sid } := by
  unfold roomAddUser
  rw [h]
  exact alistGet_set_self rooms room _

theorem alistGet_roomDelUser_self (rooms : AList RoomData) (room sid : String)
    (rd : RoomData) (h : alistGet rooms room = some rd) :
    alistGet (roomDelUser rooms room sid) room
      = some { rd with users := setDel rd.users sid } := by
  unfold roomDelUser
  rw [h]
  exact alistGet_set_self rooms room _

theorem roomsNodup_delUser (rooms : AList RoomData) (room sid : String)
    (h : ∀ p ∈ rooms, p.2.users.Nodup) :
    ∀ p ∈ roomDelUser rooms room sid, p.2.users.Nodup := by
  intro p hp
  unfold roomDelUser at hp
  cases hg : alistGet rooms room with
  | none => rw [hg] at hp; exact h p hp
  | some rd =>
    rw [hg] at hp
    rcases mem_alistSet rooms room _ p hp with h'|h'
    · subst h'
      exact nodup_setDel rd.users sid (h (room, rd) (alistGet_mem rooms room rd hg))
    · exact h p h'

/-- Closed form of the join_room handler state for an active session with a
non-empty current room. -/
theorem join_room_state_closed (st : ServerState) (sid room : String)
    (u : UserData) (hu : alistGet st.users sid = some u)
    (hcr : u.currentRoom ≠ "") :
    (join_room st sid room).1 =
      { users := alistSet st.users sid { u with currentRoom := room },
        rooms := roomAddUser
          (if alistHas (roomDelUser st.rooms u.currentRoom sid) room
            then roomDelUser st.rooms u.currentRoom sid
            else alistSet (roomDelUser st.rooms u.currentRoom sid) room
              ⟨room, []⟩) room sid,
        sio := sioJoin (sioLeave st.sio u.currentRoom sid) room sid } := by
  by_cases hb : alistHas (roomDelUser st.rooms u.currentRoom sid) room = true <;>
    simp [join_room, hu, hcr, hb]

/-- Closed form of the join_room handler output for an active session with a
non-empty current room: leave pair, optional creation broadcast, join pair,
confirmation. -/
theorem join_room_out_closed (st : ServerState) (sid room : String)
    (u : UserData) (hu : alistGet st.users sid = some u)
    (hcr : u.currentRoom ≠ "") :
    (join_room st sid room).2 =
      [⟨Target.room u.currentRoom, Payload.room_users_update u.currentRoom
          (occupantNames st.users (roomUsersList
            (roomDelUser st.rooms u.currentRoom sid) u.currentRoom))⟩,
       ⟨Target.room u.currentRoom, Payload.receive_message
         { sender := "System", message := u.username ++ " has left the room.",
           room := some u.currentRoom }⟩] ++
      (if alistHas (roomDelUser st.rooms u.currentRoom sid) room then []
       else [⟨Target.all, Payload.available_rooms (alistKeys (alistSet
          (roomDelUser st.rooms u.currentRoom sid) room ⟨room, []⟩))⟩]) ++
      [⟨Target.room room, Payload.room_users_update room
          (occupantNames (alistSet st.users sid { u with currentRoom := room })
            (roomUsersList (roomAddUser
              (if alistHas (roomDelUser st.rooms u.currentRoom sid) room
                then roomDelUser st.rooms u.currentRoom sid
                else alistSet (roomDelUser st.rooms u.currentRoom sid) room
                  ⟨room, []⟩) room sid) room))⟩,
       ⟨Target.room room, Payload.receive_message
         { sender := "System", message := u.username ++ " has joined the room.",
           room := some room }⟩,
       ⟨Target.one sid, Payload.room_changed room⟩] := by
  by_cases hb : alistHas (roomDelUser st.rooms u.currentRoom sid) room = true <;>
    simp [join_room, hu, hcr, hb]

/-- Claim C8, amended: for an Active connection with a non-empty currentRoom
and a non-empty room id R, in a state whose occupant sets are duplicate-free
and where the connection occupies only its current room (all of which hold
in every reachable state under the spec's event discipline), two consecutive
join_room(R) calls emit the leave/join broadcast pair both times (two
room_users_update emissions plus a has-left and a has-joined system message
per call), and afterwards R's occupant set contains the connection exactly
once while no other room's occupant set contains it.  The empty-string room
id R = "" escapes this (see join_room_twice_cex). -/
theorem join_room_twice_idempotent (st : ServerState) (sid R : String)
    (u : UserData) (hu : alistGet st.users sid = some u)
    (hcr : u.currentRoom ≠ "") (hR : R ≠ "")
    (honly : ∀ p ∈ st.rooms, sid ∈ p.2.users → p.1 = u.currentRoom)
    (hnodup : ∀ p ∈ st.rooms, p.2.users.Nodup) :
    ((join_room st sid R).2.countP
        (fun em => isRoomUsersUpdate em.payload) = 2 ∧
      (⟨Target.room u.currentRoom, Payload.receive_message
        { sender := "System", message := u.username ++ " has left the room.",
          room := some u.currentRoom }⟩ : Emit) ∈ (join_room st sid R).2 ∧
      (⟨Target.room R, Payload.receive_message
        { sender := "System", message := u.username ++ " has joined the room.",
          room := some R }⟩ : Emit) ∈ (join_room st sid R).2) ∧
    ((join_room (join_room st sid R).1 sid R).2.countP
        (fun em => isRoomUsersUpdate em.payload) = 2 ∧
      (⟨Target.room R, Payload.receive_message
        { sender := "System", message := u.username ++ " has left the room.",
          room := some R }⟩ : Emit)
        ∈ (join_room (join_room st sid R).1 sid R).2 ∧
      (⟨Target.room R, Payload.receive_message
        { sender := "System", message := u.username ++ " has joined the room.",
          room := some R }⟩ : Emit)
        ∈ (join_room (join_room st sid R).1 sid R).2) ∧
    (∃ rd, alistGet (join_room (join_room st sid R).1 sid R).1.rooms R
        = some rd ∧ rd.users.count sid = 1) ∧
    (∀ r, r ≠ R →
      ¬ OccIn (join_room (join_room st sid R).1 sid R).1.rooms r sid) := by
  have hout1 := join_room_out_closed st sid R u hu hcr
  have hst1 := join_room_state_closed st sid R u hu hcr
  have husers1 : (join_room st sid R).1.users
      = alistSet st.users sid { u with currentRoom := R } := by rw [hst1]
  have hrooms1 : (join_room st sid R).1.rooms
      = roomAddUser
          (if alistHas (roomDelUser st.rooms u.currentRoom sid) R
            then roomDelUser st.rooms u.currentRoom sid
            else alistSet (roomDelUser st.rooms u.currentRoom sid) R
              ⟨R, []⟩) R sid := by rw [hst1]
  have hu2 : alistGet (join_room st sid R).1.users sid
      = some { u with currentRoom := R } := by
    rw [husers1]
    exact alistGet_set_self st.users sid _
  have hcr2 : ({ u with currentRoom := R } : UserData).currentRoom ≠ "" := hR
  have hout2 := join_room_out_closed (join_room st sid R).1 sid R _ hu2 hcr2
  have hst2 := join_room_state_closed (join_room st sid R).1 sid R _ hu2 hcr2
  have hrooms2 : (join_room (join_room st sid R).1 sid R).1.rooms
      = roomAddUser
          (if alistHas (roomDelUser (join_room st sid R).1.rooms R sid) R
            then roomDelUser (join_room st sid R).1.rooms R sid
            else alistSet (roomDelUser (join_room st sid R).1.rooms R sid) R
              ⟨R, []⟩) R sid := by rw [hst2]
  have hb2 : alistHas (roomDelUser (join_room st sid R).1.rooms R sid) R
      = true := by
    rw [alistHas_roomDelUser, hrooms1, alistHas_roomAddUser]
    by_cases hb : alistHas (roomDelUser st.rooms u.currentRoom sid) R = true
    · rw [if_pos hb]
      exact hb
    · rw [if_neg hb, alistHas_set]
      exact Or.inl rfl
  obtain ⟨rd1, hrd1, hnd1⟩ :
      ∃ rd, alistGet (join_room st sid R).1.rooms R = some rd ∧
        rd.users.Nodup := by
    rw [hrooms1]
    by_cases hb : alistHas (roomDelUser st.rooms u.currentRoom sid) R = true
    · rw [if_pos hb]
      obtain ⟨rdd, hrdd⟩ := (alistHas_iff _ _).mp hb
      refine ⟨_, alistGet_roomAddUser_self _ _ _ _ hrdd, ?_⟩
      exact nodup_setAdd _ _
        (roomsNodup_delUser st.rooms u.currentRoom sid hnodup (R, rdd)
          (alistGet_mem _ _ _ hrdd))
    · rw [if_neg hb]
      refine ⟨_, alistGet_roomAddUser_self _ _ _ _
        (alistGet_set_self _ _ _), ?_⟩
      exact nodup_setAdd _ _ List.nodup_nil
  refine ⟨⟨?_, ?_, ?_⟩, ⟨?_, ?_, ?_⟩, ?_, ?_⟩
  · rw [hout1]
    by_cases hb : alistHas (roomDelUser st.rooms u.currentRoom sid) R = true <;>
      simp [hb, isRoomUsersUpdate]
  · rw [hout1]
    simp
  · rw [hout1]
    simp
  · rw [hout2]
    rw [if_pos hb2]
    simp [isRoomUsersUpdate]
  · rw [hout2]
    simp
  · rw [hout2]
    simp
  · refine ⟨{ rd1 with users := setAdd (setDel rd1.users sid) sid }, ?_, ?_⟩
    · rw [hrooms2, if_pos hb2]
      exact alistGet_roomAddUser_self _ _ _ _
        (alistGet_roomDelUser_self _ _ _ _ hrd1)
    · exact List.count_eq_one_of_mem
        (nodup_setAdd _ _ (nodup_setDel _ _ hnd1))
        ((mem_setAdd _ _ _).mpr (Or.inl rfl))
  · intro r hrne hocc'
    rw [hrooms2] at hocc'
    rw [occIn_roomAddUser_other _ _ _ _ _ hrne, if_pos hb2,
      occIn_roomDelUser_other _ _ _ _ _ hrne, hrooms1,
      occIn_roomAddUser_other _ _ _ _ _ hrne] at hocc'
    have hocc'' : OccIn (roomDelUser st.rooms u.currentRoom sid) r sid := by
      by_cases hb : alistHas (roomDelUser st.rooms u.currentRoom sid) R = true
      · rwa [if_pos hb] at hocc'
      · rw [if_neg hb] at hocc'
        have hbf : alistHas (roomDelUser st.rooms u.currentRoom sid) R
            = false := Bool.eq_false_iff.mpr hb
        rwa [occIn_set_empty _ _ _ _ ((alistHas_eq_false _ _).mp hbf)] at hocc'
    by_cases hrc : r = u.currentRoom
    · subst hrc
      rw [occIn_roomDelUser_same] at hocc''
      exact hocc''.2 rfl
    · rw [occIn_roomDelUser_other _ _ _ _ _ hrc] at hocc''
      obtain ⟨rd, hrd, hmem⟩ := hocc''
      exact hrc (honly (r, rd) (alistGet_mem _ _ _ hrd) hmem)

/-- Witness for join_room_twice_idempotent: alice joins dev twice; afterwards
dev's occupant set holds c1 exactly once. -/
theorem join_room_twice_idempotent_witness :
    ∃ rd, alistGet (join_room (join_room (run [Event.join_chat "c1" "alice"])
        "c1" "dev").1 "c1" "dev").1.rooms "dev" = some rd ∧
      rd.users.count "c1" = 1 :=
  (join_room_twice_idempotent (run [Event.join_chat "c1" "alice"]) "c1" "dev"
    ⟨"alice", "general"⟩ (by decide) (by decide) (by decide) (by decide)
    (by decide)).2.2.1

/-- Counterexample to claim C8 as stated: for the room R = "" (a legal room
id, lazily creatable), the second of two consecutive join_room(c1,"") calls
emits only the join-side broadcasts — one room_users_update and no has-left
message — because the leave step is guarded by string truthiness of the
session's currentRoom, which is now "". -/
theorem join_room_twice_cex :
    (step (step (run [Event.join_chat "c1" "alice"])
        (Event.join_room "c1" "")).1 (Event.join_room "c1" "")).2
      = [⟨Target.room "", Payload.room_users_update "" ["alice"]⟩,
         ⟨Target.room "", Payload.receive_message
            { sender := "System", message := "alice has joined the room.",
              room := some "" }⟩,
         ⟨Target.one "c1", Payload.room_changed ""⟩] := by
  decide

end ChatServer
